import Mathlib

/-
Verification of the market-snapshot resolver of maru-homepage (src/app.py).

Shallow embedding conventions:
 - Python floats are modelled as rationals (`Val := Rat`); the code never does
   arithmetic on the fetched values, it only tests `is None` and truthiness
   (a float is falsy exactly when it equals 0.0), both of which `Rat` models.
 - The ambient process state is an `Env`: whether the `yfinance` import
   succeeded (`yf is None` in the source), and what `yf.download` followed by
   `_safe_last_close` yields per ticker (`none` models every failure mode:
   raised exception, empty frame, malformed columns).
 - `@st.cache_data(ttl=600)` on `_fetch_close_yf` is modelled by threading an
   explicit per-ticker cache (ticker ↦ (store time, cached result)) and the
   current time in seconds; each call also reports the list of tickers for
   which an actual `yf.download` network call was issued.
 - The Python dict returned by `fetch_market_snapshot` is modelled as an
   association list from string keys to values (numeric-or-None, or string),
   so key presence/absence is directly expressible.
-/

namespace MaruHomepage

/-- Python float values carried by the resolver (no arithmetic is performed;
only `is None` and truthiness tests occur, so `Rat` is an adequate model). -/
abbrev Val := Rat

/-- Ambient process state: whether `import yfinance` succeeded, and the result
of `yf.download(t, period="7d", interval="1d")` piped through
`_safe_last_close` for each ticker (`none` = any failure). -/
structure Env where
  yfAvailable : Bool
  download : String → Option Val

/-- State of `static/market.json` as seen by `_fallback_market_json`:
missing file, a file on which `json.loads`/`float()` raises, or a parsed
object with optional `nikkei`/`usdjpy`/`jgb_yield` entries (already converted
by `float()`). -/
inductive MarketFile where
  | missing
  | unparsable
  | parsed (nikkei usdjpy jgb_yield : Option Val)

/-- The dictionary returned by `_fallback_market_json` (keys `nikkei`,
`usdjpy`, `jgb10y`, always present, values float-or-None). -/
structure FBRec where
  nikkei : Option Val
  usdjpy : Option Val
  jgb10y : Option Val
deriving DecidableEq

/-- Model of `_fallback_market_json` (src/app.py lines 418-430): a missing
file or any exception yields the all-None record, otherwise the parsed
optional values are returned. -/
def fallback_market_json : MarketFile → FBRec
  | .missing => ⟨none, none, none⟩
  | .unparsable => ⟨none, none, none⟩
  | .parsed n u j => ⟨n, u, j⟩

/-- The `st.cache_data` store for `_fetch_close_yf`: per ticker, the store
time (seconds) and the cached return value (which may itself be `None`). -/
abbrev Cache := String → Option (Nat × Option Val)

/-- The cache at process start: empty. -/
def emptyCache : Cache := fun _ => none

/-- Storing one entry in the cache. -/
def cacheInsert (c : Cache) (tk : String) (ent : Nat × Option Val) : Cache :=
  fun s => if s = tk then some ent else c s

/-- The body of `_fetch_close_yf` (src/app.py lines 408-415) without the
cache decorator: if `yf is None` return `None` with no network call,
otherwise issue one `yf.download` (recorded in the call list). -/
def computeFetch (e : Env) (t : String) : Option Val × List String :=
  if e.yfAvailable then (e.download t, [t]) else (none, [])

/-- Model of `_fetch_close_yf` under `@st.cache_data(ttl=60*10)`
(src/app.py lines 407-415): a cached entry younger than 600 seconds is
returned as-is; otherwise the body runs and its result (possibly `None`)
is stored. Returns (value, new cache, tickers actually downloaded). -/
def fetch_close_yf (e : Env) (now : Nat) (c : Cache) (t : String) :
    Option Val × Cache × List String :=
  match c t with
  | some (ts, v) =>
    if now < ts + 600 then (v, c, [])
    else
      let r := computeFetch e t
      (r.1, cacheInsert c t (now, r.1), r.2)
  | none =>
    let r := computeFetch e t
    (r.1, cacheInsert c t (now, r.1), r.2)

/-- The bond-yield candidate list of `fetch_market_snapshot`
(src/app.py lines 446-450): (ticker, label, suffix) in registry order. -/
def jgbCandidates : List (String × String × String) :=
  [("JP10YT=XX", "日本10年債利回り", "%"),
   ("JP10YT=RR", "日本10年債利回り", "%"),
   ("^JGBL", "日本国債先物（参考）", "")]

/-- The `for tkr, label, suffix in [...]` loop of `fetch_market_snapshot`
(src/app.py lines 446-454): fetch candidates in order, breaking on the first
non-None value; if the loop exhausts, the initial values
(None, "日本10年債", "%") survive. -/
def jgbLoop (e : Env) (now : Nat) :
    List (String × String × String) → Cache →
    (Option Val × String × String) × Cache × List String
  | [], c => ((none, "日本10年債", "%"), c, [])
  | (tkr, label, sfx) :: rest, c =>
    let r := fetch_close_yf e now c tkr
    match r.1 with
    | some v => ((some v, label, sfx), r.2.1, r.2.2)
    | none =>
      let r2 := jgbLoop e now rest r.2.1
      (r2.1, r2.2.1, r.2.2 ++ r2.2.2)

/-- A value of the snapshot dict: a float-or-None, or a string. -/
inductive SVal where
  | num (v : Option Val)
  | str (s : String)
deriving DecidableEq

/-- Model of `fetch_market_snapshot` (src/app.py lines 433-473).
`usdjpy` uses Python `or`: the second candidate is evaluated exactly when the
first is falsy (None or 0.0), and its result is then used as-is.
Returns (snapshot dict, cache after the call, tickers downloaded). -/
def fetch_market_snapshot (e : Env) (mf : MarketFile) (now : Nat) (c : Cache) :
    List (String × SVal) × Cache × List String :=
  let rn := fetch_close_yf e now c "^N225"
  let rf1 := fetch_close_yf e now rn.2.1 "JPY=X"
  let rf : Option Val × Cache × List String :=
    match rf1.1 with
    | none =>
      let r2 := fetch_close_yf e now rf1.2.1 "USDJPY=X"
      (r2.1, r2.2.1, rf1.2.2 ++ r2.2.2)
    | some v =>
      if v = 0 then
        let r2 := fetch_close_yf e now rf1.2.1 "USDJPY=X"
        (r2.1, r2.2.1, rf1.2.2 ++ r2.2.2)
      else (some v, rf1.2.1, rf1.2.2)
  let rj := jgbLoop e now jgbCandidates rf.2.1
  let fb := fallback_market_json mf
  let nikkei := match rn.1 with | none => fb.nikkei | some v => some v
  let usdjpy := match rf.1 with | none => fb.usdjpy | some v => some v
  let jgbTriple :=
    match rj.1.1 with
    | none => (fb.jgb10y, "日本10年債利回り（fallback）", "%")
    | some v => (some v, rj.1.2.1, rj.1.2.2)
  ([("nikkei", SVal.num nikkei), ("usdjpy", SVal.num usdjpy),
    ("jgb", SVal.num jgbTriple.1), ("jgb_label", SVal.str jgbTriple.2.1),
    ("jgb_suffix", SVal.str jgbTriple.2.2)],
   rj.2.1, rn.2.2 ++ rf.2.2 ++ rj.2.2)

/-- The value `_fetch_close_yf` computes when its cache has no usable entry
(derived characterization: `yf is None` short-circuit, else the download). -/
def fetchPure (e : Env) (t : String) : Option Val :=
  if e.yfAvailable then e.download t else none

/-- Value/label/suffix produced by the bond-yield loop, as a function of the
per-ticker results alone (derived from `jgbLoop`, proven equal below). -/
def jgbLoopPure (e : Env) : List (String × String × String) → Option Val × String × String
  | [] => (none, "日本10年債", "%")
  | (tkr, label, sfx) :: rest =>
    match fetchPure e tkr with
    | some v => (some v, label, sfx)
    | none => jgbLoopPure e rest

/-- Resolved Nikkei value: live `^N225` close, else the static fallback. -/
def resolveNikkei (e : Env) (fb : FBRec) : Option Val :=
  match fetchPure e "^N225" with
  | none => fb.nikkei
  | some v => some v

/-- The `JPY=X or USDJPY=X` expression: Python `or` falls through to the
second candidate when the first is `None` or `0.0`. -/
def fxRaw (e : Env) : Option Val :=
  match fetchPure e "JPY=X" with
  | none => fetchPure e "USDJPY=X"
  | some v => if v = 0 then fetchPure e "USDJPY=X" else some v

/-- Resolved USDJPY value: the `or`-chain result, else the static fallback. -/
def resolveUsdjpy (e : Env) (fb : FBRec) : Option Val :=
  match fxRaw e with
  | none => fb.usdjpy
  | some v => some v

/-- Resolved bond-yield (value, label, suffix): the loop result, or on full
failure the static fallback value under the fallback label and "%" suffix. -/
def resolveJgb (e : Env) (fb : FBRec) : Option Val × String × String :=
  match jgbLoopPure e jgbCandidates with
  | (none, _, _) => (fb.jgb10y, "日本10年債利回り（fallback）", "%")
  | (some v, l, s) => (some v, l, s)

/-- The snapshot dict as a function of the per-ticker results and the
fallback file alone (proven equal to a run from an empty cache below). -/
def pureSnap (e : Env) (mf : MarketFile) : List (String × SVal) :=
  let fb := fallback_market_json mf
  [("nikkei", SVal.num (resolveNikkei e fb)),
   ("usdjpy", SVal.num (resolveUsdjpy e fb)),
   ("jgb", SVal.num (resolveJgb e fb).1),
   ("jgb_label", SVal.str (resolveJgb e fb).2.1),
   ("jgb_suffix", SVal.str (resolveJgb e fb).2.2)]

/-- Tickers the bond-yield loop asks `_fetch_close_yf` about (stops after the
first one whose result is non-None). -/
def jgbVisited (e : Env) : List (String × String × String) → List String
  | [] => []
  | (tkr, _, _) :: rest =>
    match fetchPure e tkr with
    | some _ => [tkr]
    | none => tkr :: jgbVisited e rest

/-- Tickers `fetch_market_snapshot` asks `_fetch_close_yf` about, in call
order: `^N225`, then `JPY=X`, then (when the latter is falsy) `USDJPY=X`,
then the bond-yield candidates until the first success. -/
def visitedTickers (e : Env) : List String :=
  "^N225" :: "JPY=X" ::
    ((match fetchPure e "JPY=X" with
      | none => ["USDJPY=X"]
      | some v => if v = 0 then ["USDJPY=X"] else [])
     ++ jgbVisited e jgbCandidates)

/-- Network downloads issued by one `fetch_market_snapshot` run from an empty
cache: the visited tickers, or nothing at all when `yf is None`. -/
def pureCalls (e : Env) : List String :=
  if e.yfAvailable then visitedTickers e else []

/-- The three logical indicators of the snapshot. -/
inductive Indicator where
  | equity
  | fx
  | bond
deriving DecidableEq

/-- The registry: candidate tickers per indicator, in the order
`fetch_market_snapshot` tries them. -/
def registryTickers : Indicator → List String
  | .equity => ["^N225"]
  | .fx => ["JPY=X", "USDJPY=X"]
  | .bond => ["JP10YT=XX", "JP10YT=RR", "^JGBL"]

/-- The snapshot-dict key carrying each indicator's resolved value. -/
def indicatorKey : Indicator → String
  | .equity => "nikkei"
  | .fx => "usdjpy"
  | .bond => "jgb"

/-- The static-fallback entry for each indicator. -/
def fbField : Indicator → FBRec → Option Val
  | .equity => FBRec.nikkei
  | .fx => FBRec.usdjpy
  | .bond => FBRec.jgb10y

/-- Concrete environment: yfinance imported, every download fails. -/
def envAllFail : Env := ⟨true, fun _ => none⟩

/-- Concrete environment: the yfinance import failed (`yf is None`); the
download table is irrelevant and deliberately non-failing to show it is
never consulted. -/
def envNoYf : Env := ⟨false, fun _ => some 1⟩

/-- Concrete environment: the primary FX candidate `JPY=X` succeeds with the
float 0.0, the secondary `USDJPY=X` succeeds with 5.0, everything else
fails. -/
def envFxZero : Env :=
  ⟨true, fun t => if t = "JPY=X" then some 0 else if t = "USDJPY=X" then some 5 else none⟩

/-- Concrete mixed environment: the equity ticker `^N225` succeeds live with
40000.0 while every FX and bond candidate fails. -/
def envOnlyNikkei : Env :=
  ⟨true, fun t => if t = "^N225" then some 40000 else none⟩

/-- Decimal digit characters of `n`, least significant first. -/
def natDigitsRev (n : Nat) : List Char :=
  if h : n < 10 then [Nat.digitChar n]
  else Nat.digitChar (n % 10) :: natDigitsRev (n / 10)
termination_by n
decreasing_by exact Nat.div_lt_self (by omega) (by omega)

/-- Thousands grouping of Python's `","` format option: on a
least-significant-first digit list, insert a comma after every three
digits. -/
def commaGroupRev (ds : List Char) : List Char :=
  if h : ds.length ≤ 3 then ds
  else ds.take 3 ++ ',' :: commaGroupRev (ds.drop 3)
termination_by ds.length
decreasing_by simp [List.length_drop]; omega

/-- Model of Python `f"{x:,.2f}"` on the rational abstraction of the float:
optional minus sign, integer digits grouped in threes by commas, a dot, and
exactly two fractional digits. The binary float's rounding at the second
decimal is abstracted as rounding of the rational. -/
def pyFormatCommas2 (x : Rat) : String :=
  let n : Int := round (x * 100)
  let sign : List Char := if n < 0 then ['-'] else []
  let m : Nat := n.natAbs
  String.mk (sign ++ (commaGroupRev (natDigitsRev (m / 100))).reverse
    ++ '.' :: [Nat.digitChar (m / 10 % 10), Nat.digitChar (m % 10)])

/-- Model of `fmt_num` (src/app.py lines 476-482): `None` formats as the
fixed sentinel `"--"` with no suffix appended; a float formats as
`f"{x:,.2f}"` followed by the suffix (`suffix` defaults to `""` in the
source). The source's `except` branch is unreachable for float inputs; the
totality of this definition is exactly that fact. -/
def fmt_num (x : Option Val) (suffix : String) : String :=
  match x with
  | none => "--"
  | some v => pyFormatCommas2 v ++ suffix

set_option maxHeartbeats 4000000 in
/-- Characterization of one `fetch_market_snapshot` run from an empty cache
at time `t0`, and of a replay at any time `t1` within the 600-second TTL:
the snapshot equals `pureSnap`, the downloads equal `pureCalls`, and the
replay returns the identical snapshot with an unchanged cache and zero
downloads. -/
theorem run_characterization (e : Env) (mf : MarketFile) (t0 t1 : Nat)
    (hfresh : t1 < t0 + 600) :
    (fetch_market_snapshot e mf t0 emptyCache).1 = pureSnap e mf ∧
    (fetch_market_snapshot e mf t0 emptyCache).2.2 = pureCalls e ∧
    fetch_market_snapshot e mf t1 (fetch_market_snapshot e mf t0 emptyCache).2.1 =
      ((fetch_market_snapshot e mf t0 emptyCache).1,
       (fetch_market_snapshot e mf t0 emptyCache).2.1, []) := by
  rcases hfx : e.download "JPY=X" with _ | v
  · cases hyf : e.yfAvailable <;>
      rcases hxx : e.download "JP10YT=XX" with _ | wx <;>
        rcases hrr : e.download "JP10YT=RR" with _ | wr <;>
          rcases hjl : e.download "^JGBL" with _ | wj <;>
            simp [fetch_market_snapshot, fetch_close_yf, computeFetch, cacheInsert,
                  emptyCache, jgbLoop, jgbLoopPure, jgbCandidates, pureSnap, pureCalls,
                  visitedTickers, jgbVisited, fetchPure, fxRaw, resolveNikkei,
                  resolveUsdjpy, resolveJgb, *]
  · rcases eq_or_ne v 0 with hv | hv <;>
      cases hyf : e.yfAvailable <;>
        rcases hxx : e.download "JP10YT=XX" with _ | wx <;>
          rcases hrr : e.download "JP10YT=RR" with _ | wr <;>
            rcases hjl : e.download "^JGBL" with _ | wj <;>
              simp [fetch_market_snapshot, fetch_close_yf, computeFetch, cacheInsert,
                    emptyCache, jgbLoop, jgbLoopPure, jgbCandidates, pureSnap, pureCalls,
                    visitedTickers, jgbVisited, fetchPure, fxRaw, resolveNikkei,
                    resolveUsdjpy, resolveJgb, *]

/-- The snapshot of a run from an empty cache equals its pure
characterization. -/
theorem snap_eq_pure (e : Env) (mf : MarketFile) (now : Nat) :
    (fetch_market_snapshot e mf now emptyCache).1 = pureSnap e mf :=
  (run_characterization e mf now now (by omega)).1

/-- The downloads of a run from an empty cache equal their pure
characterization. -/
theorem calls_eq_pure (e : Env) (mf : MarketFile) (now : Nat) :
    (fetch_market_snapshot e mf now emptyCache).2.2 = pureCalls e :=
  (run_characterization e mf now now (by omega)).2.1

/-- Key lookups on the pure snapshot: the five present keys and the two keys
the spec talks about that the dict does not carry. -/
theorem lookup_pureSnap (e : Env) (mf : MarketFile) :
    List.lookup "nikkei" (pureSnap e mf) =
      some (SVal.num (resolveNikkei e (fallback_market_json mf))) ∧
    List.lookup "usdjpy" (pureSnap e mf) =
      some (SVal.num (resolveUsdjpy e (fallback_market_json mf))) ∧
    List.lookup "jgb" (pureSnap e mf) =
      some (SVal.num ((resolveJgb e (fallback_market_json mf)).1)) ∧
    List.lookup "jgb_label" (pureSnap e mf) =
      some (SVal.str ((resolveJgb e (fallback_market_json mf)).2.1)) ∧
    List.lookup "jgb_suffix" (pureSnap e mf) =
      some (SVal.str ((resolveJgb e (fallback_market_json mf)).2.2)) ∧
    List.lookup "degraded" (pureSnap e mf) = none ∧
    List.lookup "resolved_at" (pureSnap e mf) = none := by
  refine ⟨rfl, rfl, rfl, rfl, rfl, rfl, rfl⟩

/-- C2 counterexample: with every live fetch failing and a fully populated
static fallback, the snapshot resolves to the fallback values but has no
`degraded` key at all, so it cannot carry a degraded flag set to true. -/
theorem claim2_counterexample :
    List.lookup "nikkei" (fetch_market_snapshot envAllFail
        (MarketFile.parsed (some 30000) (some 148) (some 1)) 0 emptyCache).1 =
      some (SVal.num (some 30000)) ∧
    List.lookup "degraded" (fetch_market_snapshot envAllFail
        (MarketFile.parsed (some 30000) (some 148) (some 1)) 0 emptyCache).1 = none := by
  exact ⟨rfl, rfl⟩

/-- C2 (amended): for each single indicator, if every live candidate fetch of
that indicator fails and the static fallback holds a value for that
indicator, the indicator's resolved value in the snapshot equals the static
fallback value (and for the bond yield the label switches to the fallback
label) — whatever the other indicators' fetches and fallback entries do; the
snapshot carries no `degraded` flag, its dict has no such key. -/
theorem claim2_amended_static_fallback (i : Indicator) (e : Env) (mf : MarketFile)
    (now : Nat) (a : Val)
    (hfail : ∀ t ∈ registryTickers i, fetchPure e t = none)
    (hfb : fbField i (fallback_market_json mf) = some a) :
    List.lookup (indicatorKey i) (fetch_market_snapshot e mf now emptyCache).1 =
      some (SVal.num (some a)) ∧
    (i = Indicator.bond →
      List.lookup "jgb_label" (fetch_market_snapshot e mf now emptyCache).1 =
        some (SVal.str "日本10年債利回り（fallback）")) ∧
    List.lookup "degraded" (fetch_market_snapshot e mf now emptyCache).1 = none := by
  rw [snap_eq_pure]
  obtain ⟨h1, h2, h3, h4, _, h6, _⟩ := lookup_pureSnap e mf
  cases i with
  | equity =>
    have hn := hfail "^N225" (by simp [registryTickers])
    simp only [fbField] at hfb
    simp only [indicatorKey]
    refine ⟨?_, by simp, h6⟩
    rw [h1]
    simp [resolveNikkei, hn, hfb]
  | fx =>
    have ha := hfail "JPY=X" (by simp [registryTickers])
    have hb := hfail "USDJPY=X" (by simp [registryTickers])
    simp only [fbField] at hfb
    simp only [indicatorKey]
    refine ⟨?_, by simp, h6⟩
    rw [h2]
    simp [resolveUsdjpy, fxRaw, ha, hb, hfb]
  | bond =>
    have hx := hfail "JP10YT=XX" (by simp [registryTickers])
    have hr := hfail "JP10YT=RR" (by simp [registryTickers])
    have hj := hfail "^JGBL" (by simp [registryTickers])
    simp only [fbField] at hfb
    simp only [indicatorKey]
    refine ⟨?_, fun _ => ?_, h6⟩
    · rw [h3]
      simp [resolveJgb, jgbLoopPure, jgbCandidates, hx, hr, hj, hfb]
    · rw [h4]
      simp [resolveJgb, jgbLoopPure, jgbCandidates, hx, hr, hj]

/-- C2 witness: the amended theorem applied to the FX indicator in a mixed
run — `^N225` succeeds live while both FX candidates fail — with a fallback
file populated only for the FX entry. -/
theorem claim2_amended_static_fallback_witness :
    (∀ t ∈ registryTickers Indicator.fx, fetchPure envOnlyNikkei t = none) ∧
    fbField Indicator.fx
      (fallback_market_json (MarketFile.parsed none (some 148) none)) = some 148 ∧
    (List.lookup (indicatorKey Indicator.fx)
        (fetch_market_snapshot envOnlyNikkei (MarketFile.parsed none (some 148) none) 0
          emptyCache).1 = some (SVal.num (some 148)) ∧
     (Indicator.fx = Indicator.bond →
       List.lookup "jgb_label"
         (fetch_market_snapshot envOnlyNikkei (MarketFile.parsed none (some 148) none) 0
           emptyCache).1 = some (SVal.str "日本10年債利回り（fallback）")) ∧
     List.lookup "degraded"
       (fetch_market_snapshot envOnlyNikkei (MarketFile.parsed none (some 148) none) 0
         emptyCache).1 = none) :=
  ⟨by decide, rfl,
   claim2_amended_static_fallback Indicator.fx envOnlyNikkei
     (MarketFile.parsed none (some 148) none) 0 148 (by decide) rfl⟩

/-- C3 (confirmed): for each single indicator, if every live candidate fetch
of that indicator fails and the static fallback holds no value for that
indicator, that indicator's resolved value in the snapshot is the explicit
`None`, never a numeric placeholder — whatever the other indicators'
fetches and fallback entries do. -/
theorem claim3_absent_when_exhausted (i : Indicator) (e : Env) (mf : MarketFile)
    (now : Nat)
    (hfail : ∀ t ∈ registryTickers i, fetchPure e t = none)
    (hfb : fbField i (fallback_market_json mf) = none) :
    List.lookup (indicatorKey i) (fetch_market_snapshot e mf now emptyCache).1 =
      some (SVal.num none) := by
  rw [snap_eq_pure]
  obtain ⟨h1, h2, h3, _, _, _, _⟩ := lookup_pureSnap e mf
  cases i with
  | equity =>
    have hn := hfail "^N225" (by simp [registryTickers])
    simp only [fbField] at hfb
    simp only [indicatorKey]
    rw [h1]
    simp [resolveNikkei, hn, hfb]
  | fx =>
    have ha := hfail "JPY=X" (by simp [registryTickers])
    have hb := hfail "USDJPY=X" (by simp [registryTickers])
    simp only [fbField] at hfb
    simp only [indicatorKey]
    rw [h2]
    simp [resolveUsdjpy, fxRaw, ha, hb, hfb]
  | bond =>
    have hx := hfail "JP10YT=XX" (by simp [registryTickers])
    have hr := hfail "JP10YT=RR" (by simp [registryTickers])
    have hj := hfail "^JGBL" (by simp [registryTickers])
    simp only [fbField] at hfb
    simp only [indicatorKey]
    rw [h3]
    simp [resolveJgb, jgbLoopPure, jgbCandidates, hx, hr, hj, hfb]

/-- C3 witness: the theorem applied to the bond yield in a mixed run —
`^N225` succeeds live while every bond candidate fails — with a missing
fallback file, so `jgb` resolves to `None`. -/
theorem claim3_absent_when_exhausted_witness :
    (∀ t ∈ registryTickers Indicator.bond, fetchPure envOnlyNikkei t = none) ∧
    fbField Indicator.bond (fallback_market_json MarketFile.missing) = none ∧
    List.lookup (indicatorKey Indicator.bond)
      (fetch_market_snapshot envOnlyNikkei MarketFile.missing 0 emptyCache).1 =
      some (SVal.num none) :=
  ⟨by decide, rfl,
   claim3_absent_when_exhausted Indicator.bond envOnlyNikkei MarketFile.missing 0
     (by decide) rfl⟩

/-- C4 (confirmed): for every environment, fallback-file state, time and
cache — i.e. for every combination of failure modes expressible in the model
— `fetch_market_snapshot` returns (never raises) a dict with exactly the
five keys `nikkei`, `usdjpy`, `jgb`, `jgb_label`, `jgb_suffix`, in which the
three indicator slots are float-or-None values (absence is `None`). -/
theorem claim4_total_with_all_keys (e : Env) (mf : MarketFile) (now : Nat) (c : Cache) :
    ∃ (n u j : Option Val) (l s : String),
      (fetch_market_snapshot e mf now c).1 =
        [("nikkei", SVal.num n), ("usdjpy", SVal.num u), ("jgb", SVal.num j),
         ("jgb_label", SVal.str l), ("jgb_suffix", SVal.str s)] :=
  ⟨_, _, _, _, _, rfl⟩

/-- C5 counterexample: a snapshot carries no `resolved_at` key, so two calls
in the TTL window cannot "return the same `resolved_at`" — there is no such
field to compare. -/
theorem claim5_counterexample :
    List.lookup "resolved_at"
      (fetch_market_snapshot envAllFail MarketFile.missing 0 emptyCache).1 = none := by
  exact rfl

/-- C5 (amended): a second `fetch_market_snapshot` call within 600 seconds of
a first call made on an empty cache returns the bit-identical snapshot dict,
leaves the cache unchanged and issues zero provider downloads (the caching
lives per ticker in `_fetch_close_yf`); the snapshot carries no `resolved_at`
timestamp. -/
theorem claim5_amended_cache_idempotence (e : Env) (mf : MarketFile) (t0 t1 : Nat)
    (h0 : t0 ≤ t1) (h1 : t1 < t0 + 600) :
    fetch_market_snapshot e mf t1 (fetch_market_snapshot e mf t0 emptyCache).2.1 =
      ((fetch_market_snapshot e mf t0 emptyCache).1,
       (fetch_market_snapshot e mf t0 emptyCache).2.1, []) ∧
    List.lookup "resolved_at" (fetch_market_snapshot e mf t0 emptyCache).1 = none := by
  refine ⟨(run_characterization e mf t0 t1 h1).2.2, ?_⟩
  rw [snap_eq_pure]
  exact (lookup_pureSnap e mf).2.2.2.2.2.2

/-- C5 witness: the amended theorem applied at times 0 and 599 in the
all-failing environment. -/
theorem claim5_amended_cache_idempotence_witness :
    (0 : Nat) ≤ 599 ∧ (599 : Nat) < 0 + 600 ∧
    (fetch_market_snapshot envAllFail MarketFile.missing 599
        (fetch_market_snapshot envAllFail MarketFile.missing 0 emptyCache).2.1 =
      ((fetch_market_snapshot envAllFail MarketFile.missing 0 emptyCache).1,
       (fetch_market_snapshot envAllFail MarketFile.missing 0 emptyCache).2.1, []) ∧
     List.lookup "resolved_at"
       (fetch_market_snapshot envAllFail MarketFile.missing 0 emptyCache).1 = none) :=
  ⟨by omega, by omega,
   claim5_amended_cache_idempotence envAllFail MarketFile.missing 0 599
     (by omega) (by omega)⟩

/-- C8 (confirmed): when the yfinance import failed (`yf is None`, the code's
analogue of a missing credential), `_fetch_close_yf` issues no download for
any ticker, any time and any cache state, and returns `None` whenever the
cache holds no value for the ticker (fresh or stale `None` entries
included). -/
theorem claim8_unconfigured_no_network (e : Env) (now : Nat) (c : Cache) (t : String)
    (hyf : e.yfAvailable = false) :
    (fetch_close_yf e now c t).2.2 = [] ∧
    (c t = none → (fetch_close_yf e now c t).1 = none) ∧
    (∀ ts, c t = some (ts, none) → (fetch_close_yf e now c t).1 = none) := by
  rcases hc : c t with _ | ⟨ts, v⟩ <;>
    simp [fetch_close_yf, computeFetch, hc, hyf] <;>
    split <;> simp

/-- C8 witness: the theorem applied to the no-yfinance environment on the
empty cache for the FX ticker. -/
theorem claim8_unconfigured_no_network_witness :
    envNoYf.yfAvailable = false ∧
    (fetch_close_yf envNoYf 0 emptyCache "JPY=X").2.2 = [] ∧
    (fetch_close_yf envNoYf 0 emptyCache "JPY=X").1 = none :=
  ⟨rfl, (claim8_unconfigured_no_network envNoYf 0 emptyCache "JPY=X" rfl).1,
   (claim8_unconfigured_no_network envNoYf 0 emptyCache "JPY=X" rfl).2.1 rfl⟩

/-- C10 (confirmed): whenever all three live bond-yield candidates fail, the
snapshot's `jgb_label` is the fallback label and `jgb_suffix` is `"%"`,
independently of the fallback file — in particular also when the static
fallback is absent and `jgb` is `None`. -/
theorem claim10_fallback_label (e : Env) (mf : MarketFile) (now : Nat)
    (hxx : fetchPure e "JP10YT=XX" = none)
    (hrr : fetchPure e "JP10YT=RR" = none)
    (hjl : fetchPure e "^JGBL" = none) :
    List.lookup "jgb_label" (fetch_market_snapshot e mf now emptyCache).1 =
      some (SVal.str "日本10年債利回り（fallback）") ∧
    List.lookup "jgb_suffix" (fetch_market_snapshot e mf now emptyCache).1 =
      some (SVal.str "%") := by
  rw [snap_eq_pure]
  obtain ⟨_, _, _, h4, h5, _, _⟩ := lookup_pureSnap e mf
  rw [h4, h5]
  simp [resolveJgb, jgbLoopPure, jgbCandidates, hxx, hrr, hjl]

/-- C10 witness: the theorem applied to the all-failing environment with a
missing fallback file, where `jgb` is indeed `None` while the fallback label
is shown. -/
theorem claim10_fallback_label_witness :
    fetchPure envAllFail "JP10YT=XX" = none ∧
    fetchPure envAllFail "JP10YT=RR" = none ∧
    fetchPure envAllFail "^JGBL" = none ∧
    (List.lookup "jgb_label" (fetch_market_snapshot envAllFail MarketFile.missing 0
        emptyCache).1 = some (SVal.str "日本10年債利回り（fallback）") ∧
     List.lookup "jgb_suffix" (fetch_market_snapshot envAllFail MarketFile.missing 0
        emptyCache).1 = some (SVal.str "%")) :=
  ⟨rfl, rfl, rfl,
   claim10_fallback_label envAllFail MarketFile.missing 0 rfl rfl rfl⟩

/-- C1 counterexample: in the environment where `JPY=X` successfully yields
the float 0.0, the later FX candidate `USDJPY=X` is still fetched and its
value 5.0 — not the earlier candidate's 0.0 — is the resolved value, because
the source uses Python `or`, which treats 0.0 as falsy. -/
theorem claim1_counterexample :
    envFxZero.download "JPY=X" = some 0 ∧
    "USDJPY=X" ∈ (fetch_market_snapshot envFxZero MarketFile.missing 0 emptyCache).2.2 ∧
    List.lookup "usdjpy"
      (fetch_market_snapshot envFxZero MarketFile.missing 0 emptyCache).1 =
      some (SVal.num (some 5)) := by
  refine ⟨rfl, ?_, rfl⟩
  decide

/-- C1 (amended): candidate fetches short-circuit on the first non-failure
result for the bond yield, including a successful 0.0 (`JP10YT=XX` success
stops the list, `JP10YT=RR` success stops `^JGBL`); for the FX rate the
short-circuit is on Python truthiness: a nonzero `JPY=X` success stops
`USDJPY=X` and is the resolved value, but a successful 0.0 from `JPY=X`
causes `USDJPY=X` to be fetched and its value to be the resolved one. -/
theorem claim1_amended_short_circuit (e : Env) (mf : MarketFile) (now : Nat)
    (hyf : e.yfAvailable = true) :
    (∀ v : Val, e.download "JP10YT=XX" = some v →
      "JP10YT=RR" ∉ (fetch_market_snapshot e mf now emptyCache).2.2 ∧
      "^JGBL" ∉ (fetch_market_snapshot e mf now emptyCache).2.2 ∧
      List.lookup "jgb" (fetch_market_snapshot e mf now emptyCache).1 =
        some (SVal.num (some v))) ∧
    (∀ v : Val, e.download "JP10YT=XX" = none → e.download "JP10YT=RR" = some v →
      "^JGBL" ∉ (fetch_market_snapshot e mf now emptyCache).2.2 ∧
      List.lookup "jgb" (fetch_market_snapshot e mf now emptyCache).1 =
        some (SVal.num (some v))) ∧
    (∀ v : Val, e.download "JPY=X" = some v → v ≠ 0 →
      "USDJPY=X" ∉ (fetch_market_snapshot e mf now emptyCache).2.2 ∧
      List.lookup "usdjpy" (fetch_market_snapshot e mf now emptyCache).1 =
        some (SVal.num (some v))) ∧
    (e.download "JPY=X" = some 0 →
      "USDJPY=X" ∈ (fetch_market_snapshot e mf now emptyCache).2.2) ∧
    (∀ w : Val, e.download "JPY=X" = some 0 → e.download "USDJPY=X" = some w →
      List.lookup "usdjpy" (fetch_market_snapshot e mf now emptyCache).1 =
        some (SVal.num (some w))) := by
  simp only [snap_eq_pure, calls_eq_pure]
  rcases hfx : e.download "JPY=X" with _ | u
  · rcases hxx : e.download "JP10YT=XX" with _ | wx <;>
      rcases hrr : e.download "JP10YT=RR" with _ | wr <;>
        rcases hjl : e.download "^JGBL" with _ | wj <;>
          simp +contextual [pureCalls, visitedTickers, jgbVisited,
                jgbCandidates, fetchPure, fxRaw, pureSnap, resolveJgb, resolveUsdjpy,
                resolveNikkei, jgbLoopPure, List.lookup, hyf, hfx, hxx, hrr, hjl]
  · rcases eq_or_ne u 0 with hu | hu <;>
      rcases hxx : e.download "JP10YT=XX" with _ | wx <;>
        rcases hrr : e.download "JP10YT=RR" with _ | wr <;>
          rcases hjl : e.download "^JGBL" with _ | wj <;>
            simp +contextual [pureCalls, visitedTickers, jgbVisited,
                  jgbCandidates, fetchPure, fxRaw, pureSnap, resolveJgb, resolveUsdjpy,
                  resolveNikkei, jgbLoopPure, List.lookup, hyf, hfx, hxx, hrr, hjl, hu]

/-- C1 witness: the amended theorem in an environment where every first
candidate succeeds (with the bond value 0.0, exercising the non-falsy
short-circuit of the loop). -/
theorem claim1_amended_short_circuit_witness :
    (Env.mk true (fun t => if t = "JP10YT=XX" then some 0 else
        if t = "JPY=X" then some 7 else none)).yfAvailable = true ∧
    ("JP10YT=RR" ∉ (fetch_market_snapshot
        (Env.mk true (fun t => if t = "JP10YT=XX" then some 0 else
          if t = "JPY=X" then some 7 else none))
        MarketFile.missing 0 emptyCache).2.2 ∧
     "^JGBL" ∉ (fetch_market_snapshot
        (Env.mk true (fun t => if t = "JP10YT=XX" then some 0 else
          if t = "JPY=X" then some 7 else none))
        MarketFile.missing 0 emptyCache).2.2 ∧
     List.lookup "jgb" (fetch_market_snapshot
        (Env.mk true (fun t => if t = "JP10YT=XX" then some 0 else
          if t = "JPY=X" then some 7 else none))
        MarketFile.missing 0 emptyCache).1 = some (SVal.num (some 0))) ∧
    ("USDJPY=X" ∉ (fetch_market_snapshot
        (Env.mk true (fun t => if t = "JP10YT=XX" then some 0 else
          if t = "JPY=X" then some 7 else none))
        MarketFile.missing 0 emptyCache).2.2 ∧
     List.lookup "usdjpy" (fetch_market_snapshot
        (Env.mk true (fun t => if t = "JP10YT=XX" then some 0 else
          if t = "JPY=X" then some 7 else none))
        MarketFile.missing 0 emptyCache).1 = some (SVal.num (some 7))) :=
  ⟨rfl,
   (claim1_amended_short_circuit
      (Env.mk true (fun t => if t = "JP10YT=XX" then some 0 else
        if t = "JPY=X" then some 7 else none))
      MarketFile.missing 0 rfl).1 0 rfl,
   (claim1_amended_short_circuit
      (Env.mk true (fun t => if t = "JP10YT=XX" then some 0 else
        if t = "JPY=X" then some 7 else none))
      MarketFile.missing 0 rfl).2.2.1 7 rfl (by decide)⟩

/-- C7 counterexample: `USDJPY=X` is attempted even though the earlier
candidate `JPY=X` did not fail — it successfully returned the float 0.0 —
so "a later candidate is attempted only after every earlier one has failed"
is false for the FX rate. -/
theorem claim7_counterexample :
    envFxZero.download "JPY=X" = some 0 ∧
    (fetch_market_snapshot envFxZero MarketFile.missing 0 emptyCache).2.2 =
      ["^N225", "JPY=X", "USDJPY=X", "JP10YT=XX", "JP10YT=RR", "^JGBL"] := by
  exact ⟨rfl, rfl⟩

/-- C7 (amended): within one resolution the candidates are attempted in
registry order — `JP10YT=XX`, then `JP10YT=RR`, then `^JGBL` for the bond
yield, with each later candidate attempted exactly when all earlier ones
returned None; and `JPY=X` before `USDJPY=X` for the FX rate, with
`USDJPY=X` attempted exactly when `JPY=X` returned None or the falsy 0.0. -/
theorem claim7_amended_registry_order (e : Env) (mf : MarketFile) (now : Nat)
    (hyf : e.yfAvailable = true) :
    (fetch_market_snapshot e mf now emptyCache).2.2 =
      "^N225" :: "JPY=X" ::
        ((match e.download "JPY=X" with
          | none => ["USDJPY=X"]
          | some v => if v = 0 then ["USDJPY=X"] else [])
         ++ "JP10YT=XX" ::
           (match e.download "JP10YT=XX" with
            | some _ => []
            | none => "JP10YT=RR" ::
              (match e.download "JP10YT=RR" with
               | some _ => []
               | none => ["^JGBL"]))) := by
  rw [calls_eq_pure]
  rcases hxx : e.download "JP10YT=XX" with _ | wx <;>
    rcases hrr : e.download "JP10YT=RR" with _ | wr <;>
      rcases hjl : e.download "^JGBL" with _ | wj <;>
        simp [pureCalls, visitedTickers, jgbVisited, jgbCandidates, fetchPure, hyf,
              hxx, hrr, hjl]

/-- C7 witness: the amended theorem evaluated in the all-failing environment,
where the full registry order is visible. -/
theorem claim7_amended_registry_order_witness :
    envAllFail.yfAvailable = true ∧
    (fetch_market_snapshot envAllFail MarketFile.missing 0 emptyCache).2.2 =
      "^N225" :: "JPY=X" ::
        ((match envAllFail.download "JPY=X" with
          | none => ["USDJPY=X"]
          | some v => if v = 0 then ["USDJPY=X"] else [])
         ++ "JP10YT=XX" ::
           (match envAllFail.download "JP10YT=XX" with
            | some _ => []
            | none => "JP10YT=RR" ::
              (match envAllFail.download "JP10YT=RR" with
               | some _ => []
               | none => ["^JGBL"]))) :=
  ⟨rfl, claim7_amended_registry_order envAllFail MarketFile.missing 0 rfl⟩

/-- C6 (confirmed): indicator noninterference — if two runs agree on the
yfinance availability, on the download results for the candidate tickers of
the indicators other than `i`, and on the static-fallback entries of those
indicators, then the resolved values of all indicators other than `i` in the
two snapshots coincide, whatever happens to indicator `i`'s providers and
fallback entry. -/
theorem claim6_noninterference (i : Indicator) (e e' : Env) (mf mf' : MarketFile)
    (now now' : Nat)
    (hyf : e.yfAvailable = e'.yfAvailable)
    (hdl : ∀ j, j ≠ i → ∀ t ∈ registryTickers j, e.download t = e'.download t)
    (hfb : ∀ j, j ≠ i →
      fbField j (fallback_market_json mf) = fbField j (fallback_market_json mf')) :
    ∀ j, j ≠ i →
      List.lookup (indicatorKey j) (fetch_market_snapshot e mf now emptyCache).1 =
        List.lookup (indicatorKey j) (fetch_market_snapshot e' mf' now' emptyCache).1 := by
  intro j hj
  rw [snap_eq_pure, snap_eq_pure]
  cases j
  · have h1 := hdl .equity hj "^N225" (by simp [registryTickers])
    have h2 := hfb .equity hj
    simp only [fbField] at h2
    simp only [indicatorKey, (lookup_pureSnap e mf).1, (lookup_pureSnap e' mf').1,
      resolveNikkei, fetchPure]
    rw [hyf, h1, h2]
  · have h1 := hdl .fx hj "JPY=X" (by simp [registryTickers])
    have h2 := hdl .fx hj "USDJPY=X" (by simp [registryTickers])
    have h3 := hfb .fx hj
    simp only [fbField] at h3
    simp only [indicatorKey, (lookup_pureSnap e mf).2.1, (lookup_pureSnap e' mf').2.1,
      resolveUsdjpy, fxRaw, fetchPure]
    rw [hyf, h1, h2, h3]
  · have h1 := hdl .bond hj "JP10YT=XX" (by simp [registryTickers])
    have h2 := hdl .bond hj "JP10YT=RR" (by simp [registryTickers])
    have h3 := hdl .bond hj "^JGBL" (by simp [registryTickers])
    have h4 := hfb .bond hj
    simp only [fbField] at h4
    simp only [indicatorKey, (lookup_pureSnap e mf).2.2.1, (lookup_pureSnap e' mf').2.2.1,
      resolveJgb, jgbLoopPure, jgbCandidates, fetchPure]
    rw [hyf, h1, h2, h3, h4]

/-- C6 witness: the theorem applied with `i` the bond yield, identical
environments on the other indicators' tickers, and fallback files differing
only in the bond entry. -/
theorem claim6_noninterference_witness :
    envAllFail.yfAvailable = envAllFail.yfAvailable ∧
    Indicator.equity ≠ Indicator.bond ∧
    List.lookup (indicatorKey Indicator.equity)
        (fetch_market_snapshot envAllFail (MarketFile.parsed none none none) 0
          emptyCache).1 =
      List.lookup (indicatorKey Indicator.equity)
        (fetch_market_snapshot envAllFail (MarketFile.parsed none none (some 1)) 5
          emptyCache).1 :=
  ⟨rfl, by decide,
   claim6_noninterference Indicator.bond envAllFail envAllFail
     (MarketFile.parsed none none none) (MarketFile.parsed none none (some 1)) 0 5
     rfl (fun _ _ _ _ => rfl)
     (fun j hj => by cases j <;> first | rfl | exact absurd rfl hj)
     Indicator.equity (by decide)⟩

/-- Decimal digit characters are digit characters. -/
theorem digitChar_isDigit (k : Nat) (hk : k < 10) : (Nat.digitChar k).isDigit = true := by
  interval_cases k <;> rfl

/-- All characters produced by `natDigitsRev` are digit characters. -/
theorem natDigitsRev_isDigit (n : Nat) : ∀ c ∈ natDigitsRev n, c.isDigit = true := by
  induction n using Nat.strong_induction_on with
  | _ n ih =>
    rw [natDigitsRev]
    split
    · next h =>
      intro c hc
      simp only [List.mem_singleton] at hc
      subst hc
      exact digitChar_isDigit _ h
    · next h =>
      intro c hc
      rcases List.mem_cons.mp hc with h1 | h1
      · subst h1
        exact digitChar_isDigit _ (Nat.mod_lt _ (by omega))
      · exact ih (n / 10) (Nat.div_lt_self (by omega) (by omega)) c h1

/-- Auxiliary induction on a length bound: `commaGroupRev` only adds
commas. -/
theorem commaGroupRev_mem_aux (n : Nat) :
    ∀ ds : List Char, ds.length ≤ n → ∀ c ∈ commaGroupRev ds, c ∈ ds ∨ c = ',' := by
  induction n with
  | zero =>
    intro ds hlen c hc
    rw [commaGroupRev] at hc
    rw [dif_pos (by omega : ds.length ≤ 3)] at hc
    exact Or.inl hc
  | succ n ih =>
    intro ds hlen c hc
    rw [commaGroupRev] at hc
    by_cases h3 : ds.length ≤ 3
    · rw [dif_pos h3] at hc
      exact Or.inl hc
    · rw [dif_neg h3] at hc
      rcases List.mem_append.mp hc with h1 | h1
      · exact Or.inl (List.take_subset 3 ds h1)
      · rcases List.mem_cons.mp h1 with h2 | h2
        · exact Or.inr h2
        · rcases ih (ds.drop 3) (by simp [List.length_drop]; omega) c h2 with h4 | h4
          · exact Or.inl (List.drop_subset 3 ds h4)
          · exact Or.inr h4

/-- `commaGroupRev` only adds commas to its input characters. -/
theorem commaGroupRev_mem (ds : List Char) :
    ∀ c ∈ commaGroupRev ds, c ∈ ds ∨ c = ',' :=
  commaGroupRev_mem_aux ds.length ds le_rfl

/-- C9 (confirmed): `fmt_num` is total; `None` maps to the fixed sentinel
`"--"` with no suffix appended, whatever the suffix; and every float formats
as an optional minus sign and digits grouped by commas, followed by a dot,
exactly two digits, and then the suffix. -/
theorem claim9_fmt_num_total :
    (∀ s : String, fmt_num none s = "--") ∧
    (∀ (x : Val) (s : String), ∃ (ip : List Char) (d1 d2 : Char),
      fmt_num (some x) s = String.mk (ip ++ '.' :: [d1, d2]) ++ s ∧
      d1.isDigit = true ∧ d2.isDigit = true ∧
      (ip.all fun ch => ch.isDigit || ch == ',' || ch == '-') = true) := by
  refine ⟨fun _ => rfl, fun x s => ?_⟩
  refine ⟨(if (round (x * 100) : Int) < 0 then ['-'] else []) ++
      (commaGroupRev (natDigitsRev ((round (x * 100) : Int).natAbs / 100))).reverse,
    Nat.digitChar ((round (x * 100) : Int).natAbs / 10 % 10),
    Nat.digitChar ((round (x * 100) : Int).natAbs % 10), rfl, ?_, ?_, ?_⟩
  · exact digitChar_isDigit _ (Nat.mod_lt _ (by omega))
  · exact digitChar_isDigit _ (Nat.mod_lt _ (by omega))
  · rw [List.all_eq_true]
    intro ch hch
    rcases List.mem_append.mp hch with h1 | h1
    · by_cases hneg : (round (x * 100) : Int) < 0
      · rw [if_pos hneg] at h1
        simp only [List.mem_singleton] at h1
        subst h1
        rfl
      · rw [if_neg hneg] at h1
        simp at h1
    · rw [List.mem_reverse] at h1
      rcases commaGroupRev_mem _ _ h1 with h2 | h2
      · have hd := natDigitsRev_isDigit _ _ h2
        simp [hd]
      · subst h2
        rfl

end MaruHomepage
